import Mathlib

/-!
Verification of the shopping-cart state machine of this repository
(`src/main.py`).  The program keeps two Python dictionaries, a catalog
mapping generated product ids to `Product` objects and a cart mapping
product ids to `CartItem` objects, behind a `ShoppingCart` façade.

Embedding notes.
* Python dicts are modelled as insertion-ordered association lists over
  `String` keys; `dictInsert` updates in place or appends, `dictErase`
  deletes, `lookupD` is `dict[k]` / `k in dict`.
* Python integers are `Int` (quantities may be negative at the API
  boundary); the price is numeric and only ever multiplied and summed,
  so it is modelled as `Int` as well.
* A `CartItem` in Python holds a reference to the shared `Product`
  object owned by the catalog.  Every `Product` object the program
  creates is stored in the catalog under its id, and `price`/`name`
  have no setter, so the reference is modelled as the catalog key
  (`productId`) together with the immutable cached `price`; all reads
  and writes of the mutable `quantity_available` field go through the
  catalog.  Operations that dereference a key the model cannot resolve
  return `none`: for `remove_from_cart` this is Python's `KeyError`,
  for `update_cart_quantity` it is a model artifact proved unreachable.
-/

/-- One product of the catalog: `Product.__init__` stores id, name,
price and the current available quantity. -/
structure Product where
  product_id : String
  name : String
  price : Int
  quantity_available : Int
deriving DecidableEq, Repr

/-- `Product.decrease_quantity`: deducts `amount` and returns `True`
when `0 < amount <= self._quantity_available`, otherwise returns
`False` without changing anything. -/
def Product.decrease_quantity (p : Product) (amount : Int) : Bool × Product :=
  if 0 < amount ∧ amount ≤ p.quantity_available then
    (true, { p with quantity_available := p.quantity_available - amount })
  else
    (false, p)

/-- `Product.increase_quantity`: unconditionally adds `amount`. -/
def Product.increase_quantity (p : Product) (amount : Int) : Product :=
  { p with quantity_available := p.quantity_available + amount }

/-- The `quantity_available` property setter: assigns only when the new
value is `>= 0`, silently ignoring negative values. -/
def Product.set_quantity_available (p : Product) (value : Int) : Product :=
  if 0 ≤ value then { p with quantity_available := value } else p

/-- One cart line: Python's `CartItem(product, quantity)`.  The shared
`product` reference is the catalog key plus the immutable price. -/
structure CartItem where
  productId : String
  price : Int
  quantity : Int
deriving DecidableEq, Repr

/-- `CartItem.subtotal`: price times selected quantity. -/
def CartItem.subtotal (it : CartItem) : Int :=
  it.price * it.quantity

/-- Association-list lookup, `d[k]` on a Python dict. -/
def lookupD (k : String) : List (String × α) → Option α
  | [] => none
  | (k', v) :: rest => if k' = k then some v else lookupD k rest

/-- Association-list store, `d[k] = v` on a Python dict: replaces the
binding in place when the key exists, otherwise appends. -/
def dictInsert (k : String) (v : α) : List (String × α) → List (String × α)
  | [] => [(k, v)]
  | (k', v') :: rest => if k' = k then (k, v) :: rest else (k', v') :: dictInsert k v rest

/-- Association-list deletion, `del d[k]` on a Python dict. -/
def dictErase (k : String) : List (String × α) → List (String × α)
  | [] => []
  | (k', v') :: rest => if k' = k then rest else (k', v') :: dictErase k rest

/-- Decimal digit to character, as Python's `str` renders digits. -/
def digitChar : Nat → Char
  | 0 => '0'
  | 1 => '1'
  | 2 => '2'
  | 3 => '3'
  | 4 => '4'
  | 5 => '5'
  | 6 => '6'
  | 7 => '7'
  | 8 => '8'
  | 9 => '9'
  | _ => '*'

/-- Fuel-driven decimal rendering; `fuel >= n` always suffices because
the argument strictly shrinks under division by 10. -/
def natToDigitsAux : Nat → Nat → List Char
  | 0, _ => []
  | fuel + 1, n =>
    if n < 10 then [digitChar n]
    else natToDigitsAux fuel (n / 10) ++ [digitChar (n % 10)]

/-- Decimal digit list of a natural number, most significant first:
the character sequence Python's `str(n)` produces for `n >= 0`. -/
def natToDigits (n : Nat) : List Char :=
  natToDigitsAux (n + 1) n

/-- Zero padding to width 3, Python's `:03d` format for `n >= 0`. -/
def pad3 (l : List Char) : List Char :=
  List.replicate (3 - l.length) '0' ++ l

/-- `generate_product_id`'s id string: `f"PID{n:03d}"`. -/
def pidString (n : Nat) : String :=
  ⟨'P' :: 'I' :: 'D' :: pad3 (natToDigits n)⟩

/-- The façade state: `ShoppingCart.__init__` creates the empty catalog
dict, the empty cart dict, and the id counter starting at 1. -/
structure ShoppingCart where
  catalog : List (String × Product)
  cart : List (String × CartItem)
  next_id : Nat
deriving DecidableEq, Repr

/-- A fresh `ShoppingCart()`. -/
def freshCart : ShoppingCart :=
  { catalog := [], cart := [], next_id := 1 }

/-- `generate_product_id`: returns `f"PID{self._next_id:03d}"` and
increments the counter. -/
def ShoppingCart.generate_product_id (s : ShoppingCart) : String × ShoppingCart :=
  (pidString s.next_id, { s with next_id := s.next_id + 1 })

/-- `add_product`: generates an id, stores a new `Product` under it,
returns the id. -/
def ShoppingCart.add_product (s : ShoppingCart) (name : String) (price qty : Int) :
    String × ShoppingCart :=
  let (pid, s1) := s.generate_product_id
  (pid, { s1 with catalog := dictInsert pid ⟨pid, name, price, qty⟩ s1.catalog })

/-- `add_to_cart`: when `pid` is in the catalog and
`decrease_quantity(qty)` succeeds, increments the existing cart line or
creates a new one and returns `True`; otherwise returns `False` with no
change. -/
def ShoppingCart.add_to_cart (s : ShoppingCart) (pid : String) (qty : Int) :
    Bool × ShoppingCart :=
  match lookupD pid s.catalog with
  | some product =>
    let (ok, product') := product.decrease_quantity qty
    if ok then
      let s1 := { s with catalog := dictInsert pid product' s.catalog }
      match lookupD pid s1.cart with
      | some item =>
        (true, { s1 with cart := dictInsert pid { item with quantity := item.quantity + qty } s1.cart })
      | none =>
        (true, { s1 with cart := dictInsert pid ⟨pid, product.price, qty⟩ s1.cart })
    else
      (false, s)
  | none => (false, s)

/-- `update_cart_quantity`: with `diff = new_qty - current`, a no-op
success at `diff == 0`, a guarded `decrease_quantity(diff)` plus
quantity write at `diff > 0`, an unconditional `increase_quantity(-diff)`
plus quantity write at `diff < 0`, and `False` when `pid` is not in the
cart.  `none` models a dangling product reference, impossible for the
Python object graph and proved unreachable below. -/
def ShoppingCart.update_cart_quantity (s : ShoppingCart) (pid : String) (new_qty : Int) :
    Option (Bool × ShoppingCart) :=
  match lookupD pid s.cart with
  | some item =>
    match lookupD item.productId s.catalog with
    | some product =>
      let current_qty := item.quantity
      let available_qty := product.quantity_available
      let diff := new_qty - current_qty
      if diff = 0 then some (true, s)
      else if 0 < diff then
        if diff ≤ available_qty then
          some (true,
            { s with
              catalog := dictInsert item.productId (product.decrease_quantity diff).2 s.catalog
              cart := dictInsert pid { item with quantity := new_qty } s.cart })
        else
          some (false, s)
      else
        some (true,
          { s with
            catalog := dictInsert item.productId (product.increase_quantity (-diff)) s.catalog
            cart := dictInsert pid { item with quantity := new_qty } s.cart })
    | none => none
  | none => some (false, s)

/-- `remove_from_cart`: restores the line's quantity to
`self.catalog[pid]` and deletes the line; `False` when `pid` is not in
the cart.  `none` is the `KeyError` of `self.catalog[pid]` when the
cart holds a key absent from the catalog. -/
def ShoppingCart.remove_from_cart (s : ShoppingCart) (pid : String) :
    Option (Bool × ShoppingCart) :=
  match lookupD pid s.cart with
  | some item =>
    match lookupD pid s.catalog with
    | some product =>
      some (true,
        { s with
          catalog := dictInsert pid (product.increase_quantity item.quantity) s.catalog
          cart := dictErase pid s.cart })
    | none => none
  | none => some (false, s)

/-- `get_cart_total`: sum of `item.subtotal()` over the cart values. -/
def ShoppingCart.get_cart_total (s : ShoppingCart) : Int :=
  (s.cart.map (fun kv => kv.2.subtotal)).sum

/-- `clear_cart`: `self.cart.clear()`. -/
def ShoppingCart.clear_cart (s : ShoppingCart) : ShoppingCart :=
  { s with cart := [] }

/-- Stock currently recorded in the catalog for key `r` (0 when the key
is absent, which never matters because claims guard on presence). -/
def ShoppingCart.stockOf (s : ShoppingCart) (r : String) : Int :=
  match lookupD r s.catalog with
  | some p => p.quantity_available
  | none => 0

/-- Total quantity referencing product `r` across the cart lines of a
raw association list. -/
def linesQty (r : String) (cart : List (String × CartItem)) : Int :=
  (cart.map (fun kv => if kv.2.productId = r then kv.2.quantity else 0)).sum

/-- Total quantity reserved for product `r` across all cart lines. -/
def ShoppingCart.cartQty (s : ShoppingCart) (r : String) : Int :=
  linesQty r s.cart

/-- One façade call with its arguments. -/
inductive Op where
  | addProduct (name : String) (price qty : Int)
  | addToCart (pid : String) (qty : Int)
  | updateCart (pid : String) (newQty : Int)
  | removeItem (pid : String)
  | clearAll
deriving DecidableEq, Repr

/-- Effect of one façade call on the state (`none` when the model hits
a dangling reference). -/
def applyOp (s : ShoppingCart) : Op → Option ShoppingCart
  | .addProduct n p q => some (s.add_product n p q).2
  | .addToCart pid q => some (s.add_to_cart pid q).2
  | .updateCart pid q => (s.update_cart_quantity pid q).map Prod.snd
  | .removeItem pid => (s.remove_from_cart pid).map Prod.snd
  | .clearAll => some s.clear_cart

/-- Runs a sequence of façade calls from a state. -/
def runOps (s : ShoppingCart) : List Op → Option ShoppingCart
  | [] => some s
  | op :: ops =>
    match applyOp s op with
    | some s' => runOps s' ops
    | none => none

/-- States a user can drive the program into from `ShoppingCart()`. -/
def Reachable (s : ShoppingCart) : Prop :=
  ∃ ops : List Op, runOps freshCart ops = some s

/-- Operations C1 quantifies over: the three cart mutations that must
conserve stock plus reservations. -/
def Op.conserving : Op → Prop
  | .addToCart _ _ => True
  | .updateCart _ _ => True
  | .removeItem _ => True
  | _ => False

theorem lookupD_dictInsert_self (k : String) (v : α) :
    ∀ l : List (String × α), lookupD k (dictInsert k v l) = some v := by
  intro l
  induction l with
  | nil => simp [dictInsert, lookupD]
  | cons hd tl ih =>
    obtain ⟨k', v'⟩ := hd
    by_cases h : k' = k
    · simp [dictInsert, h, lookupD]
    · simp [dictInsert, h, lookupD, ih]

theorem lookupD_dictInsert_ne (k k' : String) (v : α) (hne : k' ≠ k) :
    ∀ l : List (String × α), lookupD k' (dictInsert k v l) = lookupD k' l := by
  intro l
  induction l with
  | nil => simp [dictInsert, lookupD, Ne.symm hne]
  | cons hd tl ih =>
    obtain ⟨k'', v''⟩ := hd
    by_cases h : k'' = k
    · subst h
      simp [dictInsert, lookupD, Ne.symm hne]
    · simp only [dictInsert, if_neg h, lookupD]
      by_cases h' : k'' = k'
      · simp [h']
      · simp [h', ih]

theorem mem_dictInsert (k : String) (v : α) (kv : String × α) :
    ∀ l : List (String × α), kv ∈ dictInsert k v l → kv = (k, v) ∨ kv ∈ l := by
  intro l
  induction l with
  | nil => simp [dictInsert]
  | cons hd tl ih =>
    obtain ⟨k', v'⟩ := hd
    intro hm
    by_cases h : k' = k
    · simp only [dictInsert, if_pos h] at hm
      rcases List.mem_cons.mp hm with rfl | hm2
      · exact Or.inl rfl
      · exact Or.inr (List.mem_cons.mpr (Or.inr hm2))
    · simp only [dictInsert, if_neg h] at hm
      rcases List.mem_cons.mp hm with rfl | hm2
      · exact Or.inr (List.mem_cons.mpr (Or.inl rfl))
      · rcases ih hm2 with h1 | h1
        · exact Or.inl h1
        · exact Or.inr (List.mem_cons.mpr (Or.inr h1))

theorem keys_dictInsert (k : String) (v : α) :
    ∀ l : List (String × α),
      (dictInsert k v l).map Prod.fst =
        if k ∈ l.map Prod.fst then l.map Prod.fst else l.map Prod.fst ++ [k] := by
  intro l
  induction l with
  | nil => simp [dictInsert]
  | cons hd tl ih =>
    obtain ⟨k', v'⟩ := hd
    by_cases h : k' = k
    · simp [dictInsert, h]
    · simp only [dictInsert, if_neg h, List.map_cons, ih, List.mem_cons]
      by_cases hm : k ∈ tl.map Prod.fst
      · simp [hm, Ne.symm h]
      · simp [hm, Ne.symm h]

theorem nodupKeys_dictInsert (k : String) (v : α) (l : List (String × α))
    (h : (l.map Prod.fst).Nodup) : ((dictInsert k v l).map Prod.fst).Nodup := by
  rw [keys_dictInsert]
  by_cases hm : k ∈ l.map Prod.fst
  · simpa [hm] using h
  · simp only [hm, if_false]
    simp [List.nodup_append, h, hm]

theorem lookupD_dictErase_ne (k k' : String) (hne : k' ≠ k) :
    ∀ l : List (String × α), lookupD k' (dictErase k l) = lookupD k' l := by
  intro l
  induction l with
  | nil => simp [dictErase]
  | cons hd tl ih =>
    obtain ⟨k'', v''⟩ := hd
    by_cases h : k'' = k
    · subst h
      simp [dictErase, lookupD, Ne.symm hne]
    · simp only [dictErase, if_neg h, lookupD]
      by_cases h' : k'' = k'
      · simp [h']
      · simp [h', ih]

theorem keys_dictErase_sublist (k : String) :
    ∀ l : List (String × α),
      List.Sublist ((dictErase k l).map Prod.fst) (l.map Prod.fst) := by
  intro l
  induction l with
  | nil => simp [dictErase]
  | cons hd tl ih =>
    obtain ⟨k', v'⟩ := hd
    by_cases h : k' = k
    · simp only [dictErase, if_pos h, List.map_cons]
      exact List.Sublist.cons _ (List.Sublist.refl _)
    · simp only [dictErase, if_neg h, List.map_cons]
      exact List.Sublist.cons₂ _ ih

theorem mem_dictErase (k : String) (kv : String × α) :
    ∀ l : List (String × α), kv ∈ dictErase k l → kv ∈ l := by
  intro l
  induction l with
  | nil => simp [dictErase]
  | cons hd tl ih =>
    obtain ⟨k', v'⟩ := hd
    intro hm
    by_cases h : k' = k
    · simp only [dictErase, if_pos h] at hm
      exact List.mem_cons.mpr (Or.inr hm)
    · simp only [dictErase, if_neg h] at hm
      rcases List.mem_cons.mp hm with rfl | hm2
      · exact List.mem_cons.mpr (Or.inl rfl)
      · exact List.mem_cons.mpr (Or.inr (ih hm2))

theorem lookupD_eq_none_of_not_mem_keys (k : String)
    (l : List (String × α)) (h : k ∉ l.map Prod.fst) : lookupD k l = none := by
  induction l with
  | nil => simp [lookupD]
  | cons hd tl ih =>
    obtain ⟨k', v'⟩ := hd
    simp only [List.map_cons, List.mem_cons, not_or] at h
    simp only [lookupD, if_neg (fun hh : k' = k => h.1 hh.symm)]
    exact ih h.2

theorem lookupD_dictErase_self (k : String) :
    ∀ l : List (String × α), (l.map Prod.fst).Nodup →
      lookupD k (dictErase k l) = none := by
  intro l
  induction l with
  | nil =>
    intro _
    simp [dictErase, lookupD]
  | cons hd tl ih =>
    obtain ⟨k', v'⟩ := hd
    intro hnd
    simp only [List.map_cons, List.nodup_cons] at hnd
    by_cases h : k' = k
    · subst h
      simp only [dictErase, if_pos rfl]
      exact lookupD_eq_none_of_not_mem_keys k' tl hnd.1
    · simp only [dictErase, if_neg h, lookupD, if_neg h]
      exact ih hnd.2

theorem lookupD_mem (k : String) (v : α) :
    ∀ l : List (String × α), lookupD k l = some v → (k, v) ∈ l := by
  intro l
  induction l with
  | nil => simp [lookupD]
  | cons hd tl ih =>
    obtain ⟨k', v'⟩ := hd
    intro hm
    by_cases h : k' = k
    · simp only [lookupD, if_pos h, Option.some.injEq] at hm
      subst h
      subst hm
      exact List.mem_cons.mpr (Or.inl rfl)
    · simp only [lookupD, if_neg h] at hm
      exact List.mem_cons.mpr (Or.inr (ih hm))

theorem mem_keys_of_lookupD (k : String) (v : α) (l : List (String × α))
    (h : lookupD k l = some v) : k ∈ l.map Prod.fst := by
  by_contra hm
  rw [lookupD_eq_none_of_not_mem_keys k l hm] at h
  exact Option.noConfusion h

theorem linesQty_dictInsert_none (r k : String) (v : CartItem) :
    ∀ cart : List (String × CartItem), lookupD k cart = none →
      linesQty r (dictInsert k v cart) =
        linesQty r cart + (if v.productId = r then v.quantity else 0) := by
  intro cart
  induction cart with
  | nil =>
    intro _
    simp [dictInsert, linesQty]
  | cons hd tl ih =>
    obtain ⟨k', w⟩ := hd
    intro hl
    by_cases h : k' = k
    · simp only [lookupD, if_pos h] at hl
      exact Option.noConfusion hl
    · simp only [lookupD, if_neg h] at hl
      simp only [dictInsert, if_neg h, linesQty, List.map_cons, List.sum_cons]
      have := ih hl
      simp only [linesQty] at this
      rw [this]
      ring

theorem linesQty_dictInsert_some (r k : String) (v w : CartItem) :
    ∀ cart : List (String × CartItem), lookupD k cart = some w →
      linesQty r (dictInsert k v cart) =
        linesQty r cart - (if w.productId = r then w.quantity else 0)
          + (if v.productId = r then v.quantity else 0) := by
  intro cart
  induction cart with
  | nil =>
    intro hl
    exact Option.noConfusion hl
  | cons hd tl ih =>
    obtain ⟨k', w'⟩ := hd
    intro hl
    by_cases h : k' = k
    · simp only [lookupD, if_pos h, Option.some.injEq] at hl
      subst hl
      simp only [dictInsert, if_pos h, linesQty, List.map_cons, List.sum_cons]
      ring
    · simp only [lookupD, if_neg h] at hl
      simp only [dictInsert, if_neg h, linesQty, List.map_cons, List.sum_cons]
      have := ih hl
      simp only [linesQty] at this
      rw [this]
      ring

theorem linesQty_dictErase_some (r k : String) (w : CartItem) :
    ∀ cart : List (String × CartItem), lookupD k cart = some w →
      linesQty r (dictErase k cart) =
        linesQty r cart - (if w.productId = r then w.quantity else 0) := by
  intro cart
  induction cart with
  | nil =>
    intro hl
    exact Option.noConfusion hl
  | cons hd tl ih =>
    obtain ⟨k', w'⟩ := hd
    intro hl
    by_cases h : k' = k
    · simp only [lookupD, if_pos h, Option.some.injEq] at hl
      subst hl
      simp only [dictErase, if_pos h, linesQty, List.map_cons, List.sum_cons]
      ring
    · simp only [lookupD, if_neg h] at hl
      simp only [dictErase, if_neg h, linesQty, List.map_cons, List.sum_cons]
      have := ih hl
      simp only [linesQty] at this
      rw [this]
      ring

/-- Accumulator step of reading a decimal digit string left to right. -/
def digitStep (a : Nat) (c : Char) : Nat :=
  a * 10 + (c.toNat - 48)

/-- Value of a decimal digit string. -/
def parseDigits (l : List Char) : Nat :=
  l.foldl digitStep 0

/-- Counter encoded in a generated id: the digits after `"PID"`. -/
def pidParse (s : String) : Nat :=
  parseDigits (s.data.drop 3)

theorem digitChar_toNat (n : Nat) (h : n < 10) : (digitChar n).toNat - 48 = n := by
  interval_cases n <;> decide

theorem foldl_digitStep_natToDigitsAux (fuel : Nat) :
    ∀ n a, n < fuel →
      List.foldl digitStep a (natToDigitsAux fuel n) =
        a * 10 ^ (natToDigitsAux fuel n).length + n := by
  induction fuel with
  | zero =>
    intro n a h
    exact absurd h (Nat.not_lt_zero n)
  | succ fuel ih =>
    intro n a h
    by_cases h10 : n < 10
    · simp only [natToDigitsAux, if_pos h10, List.foldl_cons, List.foldl_nil,
        List.length_cons, List.length_nil, digitStep, digitChar_toNat n h10,
        pow_one, zero_add, pow_zero]
    · have hdiv : n / 10 < fuel := by omega
      simp only [natToDigitsAux, if_neg h10, List.foldl_append, List.length_append,
        List.foldl_cons, List.foldl_nil, List.length_cons, List.length_nil]
      rw [ih (n / 10) a hdiv]
      have hd9 : n % 10 < 10 := Nat.mod_lt n (by omega)
      simp only [digitStep, digitChar_toNat (n % 10) hd9]
      have hmod : 10 * (n / 10) + n % 10 = n := Nat.div_add_mod n 10
      have hring :
          (a * 10 ^ (natToDigitsAux fuel (n / 10)).length + n / 10) * 10 + n % 10 =
            a * (10 ^ (natToDigitsAux fuel (n / 10)).length * 10)
              + (10 * (n / 10) + n % 10) := by ring
      rw [hring, hmod, ← pow_succ]

theorem foldl_digitStep_replicate_zero (m : Nat) :
    List.foldl digitStep 0 (List.replicate m '0') = 0 := by
  induction m with
  | zero => rfl
  | succ m ih =>
    simp only [List.replicate, List.foldl_cons]
    have : digitStep 0 '0' = 0 := by decide
    rw [this, ih]

theorem parseDigits_pad3_natToDigits (n : Nat) :
    parseDigits (pad3 (natToDigits n)) = n := by
  simp only [parseDigits, pad3, List.foldl_append, foldl_digitStep_replicate_zero]
  have := foldl_digitStep_natToDigitsAux (n + 1) n 0 (Nat.lt_succ_self n)
  simp only [natToDigits]
  rw [this]
  simp

theorem pidParse_pidString (n : Nat) : pidParse (pidString n) = n := by
  simp only [pidParse, pidString, List.drop_succ_cons, List.drop_zero]
  exact parseDigits_pad3_natToDigits n

theorem pidString_ne_of_lt (m n : Nat) (h : m < n) : pidString m ≠ pidString n := by
  intro he
  have : m = n := by
    have := congrArg pidParse he
    simpa [pidParse_pidString] using this
  omega

/-- Structural invariant of every program state: both dicts have
distinct keys, every cart line references the catalog product stored
under its own key (sharing the immutable price), and every catalog key
is a generated id whose counter is below the next counter value. -/
def CartInv (s : ShoppingCart) : Prop :=
  (s.catalog.map Prod.fst).Nodup ∧
  (s.cart.map Prod.fst).Nodup ∧
  (∀ kv ∈ s.cart, kv.2.productId = kv.1 ∧
    (lookupD kv.1 s.catalog).map Product.price = some kv.2.price) ∧
  (∀ kv ∈ s.catalog, kv.1 = pidString (pidParse kv.1) ∧ pidParse kv.1 < s.next_id)

theorem pid_fresh (s : ShoppingCart)
    (h4 : ∀ kv ∈ s.catalog, kv.1 = pidString (pidParse kv.1) ∧ pidParse kv.1 < s.next_id) :
    lookupD (pidString s.next_id) s.catalog = none := by
  apply lookupD_eq_none_of_not_mem_keys
  intro hm
  obtain ⟨kv, hkv, hfst⟩ := List.mem_map.mp hm
  obtain ⟨_, hlt⟩ := h4 kv hkv
  rw [hfst, pidParse_pidString] at hlt
  omega

theorem wf_cart_item (s : ShoppingCart)
    (h3 : ∀ kv ∈ s.cart, kv.2.productId = kv.1 ∧
      (lookupD kv.1 s.catalog).map Product.price = some kv.2.price)
    (pid : String) (item : CartItem) (hl : lookupD pid s.cart = some item) :
    item.productId = pid ∧
      ∃ p, lookupD pid s.catalog = some p ∧ item.price = p.price := by
  have hm := lookupD_mem pid item s.cart hl
  obtain ⟨hid, hpr⟩ := h3 (pid, item) hm
  refine ⟨hid, ?_⟩
  cases hc : lookupD pid s.catalog with
  | none =>
    rw [hc] at hpr
    exact Option.noConfusion hpr
  | some p =>
    rw [hc] at hpr
    simp only [Option.map_some', Option.some.injEq] at hpr
    exact ⟨p, rfl, hpr.symm⟩

theorem inv_freshCart : CartInv freshCart := by
  refine ⟨?_, ?_, ?_, ?_⟩ <;> simp [freshCart]

theorem inv_add_product (s : ShoppingCart) (h : CartInv s) (nm : String) (price qty : Int) :
    CartInv (s.add_product nm price qty).2 := by
  obtain ⟨h1, h2, h3, h4⟩ := h
  have hfresh : lookupD (pidString s.next_id) s.catalog = none := pid_fresh s h4
  simp only [ShoppingCart.add_product, ShoppingCart.generate_product_id]
  refine ⟨?_, ?_, ?_, ?_⟩
  · exact nodupKeys_dictInsert _ _ _ h1
  · exact h2
  · intro kv hkv
    obtain ⟨hid, hpr⟩ := h3 kv hkv
    refine ⟨hid, ?_⟩
    have hne : kv.1 ≠ pidString s.next_id := by
      intro he
      rw [he, hfresh] at hpr
      exact Option.noConfusion hpr
    rw [lookupD_dictInsert_ne _ _ _ hne]
    exact hpr
  · intro kv hkv
    rcases mem_dictInsert _ _ _ _ hkv with rfl | hold
    · refine ⟨?_, ?_⟩ <;> simp [pidParse_pidString]
    · obtain ⟨he, hlt⟩ := h4 kv hold
      exact ⟨he, Nat.lt_succ_of_lt hlt⟩

theorem add_to_cart_not_found (s : ShoppingCart) (pid : String) (qty : Int)
    (h : lookupD pid s.catalog = none) : s.add_to_cart pid qty = (false, s) := by
  unfold ShoppingCart.add_to_cart
  rw [h]

theorem add_to_cart_no_stock (s : ShoppingCart) (pid : String) (qty : Int)
    (product : Product) (h : lookupD pid s.catalog = some product)
    (hq : ¬(0 < qty ∧ qty ≤ product.quantity_available)) :
    s.add_to_cart pid qty = (false, s) := by
  unfold ShoppingCart.add_to_cart
  rw [h]
  simp [Product.decrease_quantity, hq]

theorem add_to_cart_success_grow (s : ShoppingCart) (pid : String) (qty : Int)
    (product : Product) (item : CartItem)
    (h : lookupD pid s.catalog = some product)
    (hq : 0 < qty ∧ qty ≤ product.quantity_available)
    (hc : lookupD pid s.cart = some item) :
    s.add_to_cart pid qty =
      (true,
        { s with
          catalog := dictInsert pid
            { product with quantity_available := product.quantity_available - qty } s.catalog
          cart := dictInsert pid { item with quantity := item.quantity + qty } s.cart }) := by
  unfold ShoppingCart.add_to_cart
  rw [h]
  simp [Product.decrease_quantity, hq, hc]

theorem add_to_cart_success_new (s : ShoppingCart) (pid : String) (qty : Int)
    (product : Product)
    (h : lookupD pid s.catalog = some product)
    (hq : 0 < qty ∧ qty ≤ product.quantity_available)
    (hc : lookupD pid s.cart = none) :
    s.add_to_cart pid qty =
      (true,
        { s with
          catalog := dictInsert pid
            { product with quantity_available := product.quantity_available - qty } s.catalog
          cart := dictInsert pid ⟨pid, product.price, qty⟩ s.cart }) := by
  unfold ShoppingCart.add_to_cart
  rw [h]
  simp [Product.decrease_quantity, hq, hc]

theorem inv_add_to_cart (s : ShoppingCart) (h : CartInv s) (pid : String) (qty : Int) :
    CartInv (s.add_to_cart pid qty).2 := by
  obtain ⟨h1, h2, h3, h4⟩ := h
  cases hcat : lookupD pid s.catalog with
  | none =>
    rw [add_to_cart_not_found s pid qty hcat]
    exact ⟨h1, h2, h3, h4⟩
  | some product =>
    by_cases hq : 0 < qty ∧ qty ≤ product.quantity_available
    · have hpid_keys : (pid, product) ∈ s.catalog := lookupD_mem _ _ _ hcat
      have hprice :
          ∀ item' : CartItem, item'.productId = pid →
            item'.price = product.price →
            ∀ kv ∈ dictInsert pid item' s.cart, kv.2.productId = kv.1 ∧
              (lookupD kv.1 (dictInsert pid
                { product with quantity_available := product.quantity_available - qty }
                s.catalog)).map Product.price = some kv.2.price := by
        intro item' hid' hpr' kv hkv
        rcases mem_dictInsert _ _ _ _ hkv with rfl | hold
        · refine ⟨hid', ?_⟩
          rw [lookupD_dictInsert_self]
          simp [hpr']
        · obtain ⟨hid, hpr⟩ := h3 kv hold
          refine ⟨hid, ?_⟩
          by_cases he : kv.1 = pid
          · rw [he, lookupD_dictInsert_self]
            rw [he, hcat] at hpr
            simp only [Option.map_some', Option.some.injEq] at hpr
            simp [hpr]
          · rw [lookupD_dictInsert_ne _ _ _ he]
            exact hpr
      have hbound :
          ∀ kv ∈ dictInsert pid
            { product with quantity_available := product.quantity_available - qty }
            s.catalog, kv.1 = pidString (pidParse kv.1) ∧ pidParse kv.1 < s.next_id := by
        intro kv hkv
        rcases mem_dictInsert _ _ _ _ hkv with rfl | hold
        · exact h4 (pid, product) hpid_keys
        · exact h4 kv hold
      cases hc : lookupD pid s.cart with
      | some item =>
        rw [add_to_cart_success_grow s pid qty product item hcat hq hc]
        obtain ⟨hid, p, hp, hpr⟩ := wf_cart_item s h3 pid item hc
        rw [hcat] at hp
        cases hp
        exact ⟨nodupKeys_dictInsert _ _ _ h1, nodupKeys_dictInsert _ _ _ h2,
          hprice { item with quantity := item.quantity + qty } hid hpr, hbound⟩
      | none =>
        rw [add_to_cart_success_new s pid qty product hcat hq hc]
        exact ⟨nodupKeys_dictInsert _ _ _ h1, nodupKeys_dictInsert _ _ _ h2,
          hprice ⟨pid, product.price, qty⟩ rfl rfl, hbound⟩
    · rw [add_to_cart_no_stock s pid qty product hcat hq]
      exact ⟨h1, h2, h3, h4⟩

theorem update_not_in_cart (s : ShoppingCart) (pid : String) (new_qty : Int)
    (hc : lookupD pid s.cart = none) :
    s.update_cart_quantity pid new_qty = some (false, s) := by
  unfold ShoppingCart.update_cart_quantity
  rw [hc]

theorem update_noop (s : ShoppingCart) (pid : String) (new_qty : Int)
    (item : CartItem) (product : Product)
    (hc : lookupD pid s.cart = some item)
    (hcat : lookupD item.productId s.catalog = some product)
    (hd : new_qty - item.quantity = 0) :
    s.update_cart_quantity pid new_qty = some (true, s) := by
  unfold ShoppingCart.update_cart_quantity
  rw [hc]
  simp [hcat, hd]

theorem update_increase_ok (s : ShoppingCart) (pid : String) (new_qty : Int)
    (item : CartItem) (product : Product)
    (hc : lookupD pid s.cart = some item)
    (hcat : lookupD item.productId s.catalog = some product)
    (hd : 0 < new_qty - item.quantity)
    (hs : new_qty - item.quantity ≤ product.quantity_available) :
    s.update_cart_quantity pid new_qty = some (true,
      { s with
        catalog := dictInsert item.productId
          { product with
            quantity_available := product.quantity_available - (new_qty - item.quantity) }
          s.catalog
        cart := dictInsert pid { item with quantity := new_qty } s.cart }) := by
  have hne : ¬(new_qty - item.quantity = 0) := by omega
  unfold ShoppingCart.update_cart_quantity
  rw [hc]
  simp [hcat, Product.decrease_quantity, hd, hs, hne]

theorem update_increase_fail (s : ShoppingCart) (pid : String) (new_qty : Int)
    (item : CartItem) (product : Product)
    (hc : lookupD pid s.cart = some item)
    (hcat : lookupD item.productId s.catalog = some product)
    (hd : 0 < new_qty - item.quantity)
    (hs : ¬ new_qty - item.quantity ≤ product.quantity_available) :
    s.update_cart_quantity pid new_qty = some (false, s) := by
  have hne : ¬(new_qty - item.quantity = 0) := by omega
  unfold ShoppingCart.update_cart_quantity
  rw [hc]
  simp [hcat, hd, hs, hne]

theorem update_decrease (s : ShoppingCart) (pid : String) (new_qty : Int)
    (item : CartItem) (product : Product)
    (hc : lookupD pid s.cart = some item)
    (hcat : lookupD item.productId s.catalog = some product)
    (hd : new_qty - item.quantity < 0) :
    s.update_cart_quantity pid new_qty = some (true,
      { s with
        catalog := dictInsert item.productId
          { product with
            quantity_available := product.quantity_available + -(new_qty - item.quantity) }
          s.catalog
        cart := dictInsert pid { item with quantity := new_qty } s.cart }) := by
  have hne : ¬(new_qty - item.quantity = 0) := by omega
  have hnl : ¬(0 < new_qty - item.quantity) := by omega
  unfold ShoppingCart.update_cart_quantity
  rw [hc]
  simp [hcat, Product.increase_quantity, hne, hnl]

theorem remove_not_in_cart (s : ShoppingCart) (pid : String)
    (hc : lookupD pid s.cart = none) :
    s.remove_from_cart pid = some (false, s) := by
  unfold ShoppingCart.remove_from_cart
  rw [hc]

theorem remove_success (s : ShoppingCart) (pid : String)
    (item : CartItem) (product : Product)
    (hc : lookupD pid s.cart = some item)
    (hcat : lookupD pid s.catalog = some product) :
    s.remove_from_cart pid = some (true,
      { s with
        catalog := dictInsert pid
          { product with quantity_available := product.quantity_available + item.quantity }
          s.catalog
        cart := dictErase pid s.cart }) := by
  unfold ShoppingCart.remove_from_cart
  rw [hc]
  simp [hcat, Product.increase_quantity]

theorem remove_key_error (s : ShoppingCart) (pid : String) (item : CartItem)
    (hc : lookupD pid s.cart = some item)
    (hcat : lookupD pid s.catalog = none) :
    s.remove_from_cart pid = none := by
  unfold ShoppingCart.remove_from_cart
  rw [hc]
  simp [hcat]

theorem wf_lines_catalog_insert (s : ShoppingCart) (pid : String)
    (product product' : Product)
    (h3 : ∀ kv ∈ s.cart, kv.2.productId = kv.1 ∧
      (lookupD kv.1 s.catalog).map Product.price = some kv.2.price)
    (hcat : lookupD pid s.catalog = some product)
    (hpp : product'.price = product.price) :
    ∀ kv ∈ s.cart, kv.2.productId = kv.1 ∧
      (lookupD kv.1 (dictInsert pid product' s.catalog)).map Product.price
        = some kv.2.price := by
  intro kv hkv
  obtain ⟨hid, hpr⟩ := h3 kv hkv
  refine ⟨hid, ?_⟩
  by_cases he : kv.1 = pid
  · rw [he, lookupD_dictInsert_self]
    rw [he, hcat] at hpr
    simp only [Option.map_some', Option.some.injEq] at hpr
    simp [hpp, hpr]
  · rw [lookupD_dictInsert_ne _ _ _ he]
    exact hpr

theorem pid_bound_insert (catalog : List (String × Product)) (n : Nat)
    (pid : String) (p' product : Product)
    (h4 : ∀ kv ∈ catalog, kv.1 = pidString (pidParse kv.1) ∧ pidParse kv.1 < n)
    (hcat : lookupD pid catalog = some product) :
    ∀ kv ∈ dictInsert pid p' catalog,
      kv.1 = pidString (pidParse kv.1) ∧ pidParse kv.1 < n := by
  intro kv hkv
  rcases mem_dictInsert _ _ _ _ hkv with rfl | hold
  · exact h4 (pid, product) (lookupD_mem _ _ _ hcat)
  · exact h4 kv hold

theorem inv_update_cart_quantity (s : ShoppingCart) (h : CartInv s)
    (pid : String) (new_qty : Int) (r : Bool × ShoppingCart)
    (hr : s.update_cart_quantity pid new_qty = some r) : CartInv r.2 := by
  obtain ⟨h1, h2, h3, h4⟩ := h
  cases hc : lookupD pid s.cart with
  | none =>
    rw [update_not_in_cart s pid new_qty hc] at hr
    cases hr
    exact ⟨h1, h2, h3, h4⟩
  | some item =>
    obtain ⟨hid, product, hcat0, hpr0⟩ := wf_cart_item s h3 pid item hc
    have hcat : lookupD item.productId s.catalog = some product := by
      rw [hid]; exact hcat0
    rcases lt_trichotomy (new_qty - item.quantity) 0 with hd | hd | hd
    · rw [update_decrease s pid new_qty item product hc hcat hd] at hr
      cases hr
      refine ⟨nodupKeys_dictInsert _ _ _ h1, nodupKeys_dictInsert _ _ _ h2, ?_, ?_⟩
      · intro kv hkv
        rcases mem_dictInsert _ _ _ _ hkv with rfl | hold
        · refine ⟨hid, ?_⟩
          rw [hid, lookupD_dictInsert_self]
          simp [hpr0]
        · have := wf_lines_catalog_insert s item.productId product
            { product with quantity_available :=
                product.quantity_available + -(new_qty - item.quantity) }
            h3 hcat rfl kv hold
          exact this
      · rw [hid]
        exact pid_bound_insert s.catalog s.next_id pid _ product h4 hcat0
    · have hd0 : new_qty - item.quantity = 0 := hd
      rw [update_noop s pid new_qty item product hc hcat hd0] at hr
      cases hr
      exact ⟨h1, h2, h3, h4⟩
    · by_cases hs : new_qty - item.quantity ≤ product.quantity_available
      · rw [update_increase_ok s pid new_qty item product hc hcat hd hs] at hr
        cases hr
        refine ⟨nodupKeys_dictInsert _ _ _ h1, nodupKeys_dictInsert _ _ _ h2, ?_, ?_⟩
        · intro kv hkv
          rcases mem_dictInsert _ _ _ _ hkv with rfl | hold
          · refine ⟨hid, ?_⟩
            rw [hid, lookupD_dictInsert_self]
            simp [hpr0]
          · exact wf_lines_catalog_insert s item.productId product
              { product with quantity_available :=
                  product.quantity_available - (new_qty - item.quantity) }
              h3 hcat rfl kv hold
        · rw [hid]
          exact pid_bound_insert s.catalog s.next_id pid _ product h4 hcat0
      · rw [update_increase_fail s pid new_qty item product hc hcat hd hs] at hr
        cases hr
        exact ⟨h1, h2, h3, h4⟩

theorem inv_remove_from_cart (s : ShoppingCart) (h : CartInv s)
    (pid : String) (r : Bool × ShoppingCart)
    (hr : s.remove_from_cart pid = some r) : CartInv r.2 := by
  obtain ⟨h1, h2, h3, h4⟩ := h
  cases hc : lookupD pid s.cart with
  | none =>
    rw [remove_not_in_cart s pid hc] at hr
    cases hr
    exact ⟨h1, h2, h3, h4⟩
  | some item =>
    obtain ⟨hid, product, hcat, hpr0⟩ := wf_cart_item s h3 pid item hc
    rw [remove_success s pid item product hc hcat] at hr
    cases hr
    refine ⟨nodupKeys_dictInsert _ _ _ h1, ?_, ?_, ?_⟩
    · exact (h2.sublist (keys_dictErase_sublist pid s.cart))
    · intro kv hkv
      exact wf_lines_catalog_insert s pid product
        { product with quantity_available := product.quantity_available + item.quantity }
        h3 hcat rfl kv (mem_dictErase _ _ _ hkv)
    · exact pid_bound_insert s.catalog s.next_id pid _ product h4 hcat

theorem inv_clear_cart (s : ShoppingCart) (h : CartInv s) : CartInv s.clear_cart := by
  obtain ⟨h1, _, _, h4⟩ := h
  exact ⟨h1, by simp [ShoppingCart.clear_cart], by simp [ShoppingCart.clear_cart], h4⟩

theorem update_isSome (s : ShoppingCart) (h : CartInv s) (pid : String) (new_qty : Int) :
    ∃ r, s.update_cart_quantity pid new_qty = some r := by
  obtain ⟨_, _, h3, _⟩ := h
  cases hc : lookupD pid s.cart with
  | none => exact ⟨(false, s), update_not_in_cart s pid new_qty hc⟩
  | some item =>
    obtain ⟨hid, product, hcat0, _⟩ := wf_cart_item s h3 pid item hc
    have hcat : lookupD item.productId s.catalog = some product := by
      rw [hid]; exact hcat0
    rcases lt_trichotomy (new_qty - item.quantity) 0 with hd | hd | hd
    · exact ⟨_, update_decrease s pid new_qty item product hc hcat hd⟩
    · exact ⟨_, update_noop s pid new_qty item product hc hcat hd⟩
    · by_cases hs : new_qty - item.quantity ≤ product.quantity_available
      · exact ⟨_, update_increase_ok s pid new_qty item product hc hcat hd hs⟩
      · exact ⟨_, update_increase_fail s pid new_qty item product hc hcat hd hs⟩

theorem remove_isSome (s : ShoppingCart) (h : CartInv s) (pid : String) :
    ∃ r, s.remove_from_cart pid = some r := by
  obtain ⟨_, _, h3, _⟩ := h
  cases hc : lookupD pid s.cart with
  | none => exact ⟨(false, s), remove_not_in_cart s pid hc⟩
  | some item =>
    obtain ⟨hid, product, hcat, _⟩ := wf_cart_item s h3 pid item hc
    exact ⟨_, remove_success s pid item product hc hcat⟩

theorem inv_applyOp (s : ShoppingCart) (h : CartInv s) (op : Op) (s' : ShoppingCart)
    (hr : applyOp s op = some s') : CartInv s' := by
  cases op with
  | addProduct n p q =>
    simp only [applyOp, Option.some.injEq] at hr
    subst hr
    exact inv_add_product s h n p q
  | addToCart pid q =>
    simp only [applyOp, Option.some.injEq] at hr
    subst hr
    exact inv_add_to_cart s h pid q
  | updateCart pid q =>
    simp only [applyOp] at hr
    cases hu : s.update_cart_quantity pid q with
    | none =>
      rw [hu] at hr
      exact Option.noConfusion hr
    | some r =>
      rw [hu] at hr
      simp only [Option.map_some', Option.some.injEq] at hr
      subst hr
      exact inv_update_cart_quantity s h pid q r hu
  | removeItem pid =>
    simp only [applyOp] at hr
    cases hu : s.remove_from_cart pid with
    | none =>
      rw [hu] at hr
      exact Option.noConfusion hr
    | some r =>
      rw [hu] at hr
      simp only [Option.map_some', Option.some.injEq] at hr
      subst hr
      exact inv_remove_from_cart s h pid r hu
  | clearAll =>
    simp only [applyOp, Option.some.injEq] at hr
    subst hr
    exact inv_clear_cart s h

theorem inv_runOps (ops : List Op) :
    ∀ s s', CartInv s → runOps s ops = some s' → CartInv s' := by
  induction ops with
  | nil =>
    intro s s' h hr
    simp only [runOps, Option.some.injEq] at hr
    subst hr
    exact h
  | cons op ops ih =>
    intro s s' h hr
    simp only [runOps] at hr
    cases ha : applyOp s op with
    | none =>
      rw [ha] at hr
      exact Option.noConfusion hr
    | some s1 =>
      rw [ha] at hr
      exact ih s1 s' (inv_applyOp s h op s1 ha) hr

theorem reachable_inv (s : ShoppingCart) (h : Reachable s) : CartInv s := by
  obtain ⟨ops, hr⟩ := h
  exact inv_runOps ops freshCart s inv_freshCart hr

theorem conserve_add_to_cart (s : ShoppingCart) (h : CartInv s) (pid : String)
    (qty : Int) (r : String) :
    (s.add_to_cart pid qty).2.stockOf r + (s.add_to_cart pid qty).2.cartQty r
      = s.stockOf r + s.cartQty r := by
  obtain ⟨h1, h2, h3, h4⟩ := h
  cases hcat : lookupD pid s.catalog with
  | none => rw [add_to_cart_not_found s pid qty hcat]
  | some product =>
    by_cases hq : 0 < qty ∧ qty ≤ product.quantity_available
    · cases hc : lookupD pid s.cart with
      | some item =>
        rw [add_to_cart_success_grow s pid qty product item hcat hq hc]
        obtain ⟨hid, p, hp, hpr⟩ := wf_cart_item s h3 pid item hc
        simp only [ShoppingCart.stockOf, ShoppingCart.cartQty]
        rw [linesQty_dictInsert_some r pid _ item s.cart hc]
        by_cases he : r = pid
        · subst he
          rw [lookupD_dictInsert_self, hcat]
          simp [hid]
          omega
        · rw [lookupD_dictInsert_ne _ _ _ he]
          simp [hid, Ne.symm he]
      | none =>
        rw [add_to_cart_success_new s pid qty product hcat hq hc]
        simp only [ShoppingCart.stockOf, ShoppingCart.cartQty]
        rw [linesQty_dictInsert_none r pid _ s.cart hc]
        by_cases he : r = pid
        · subst he
          rw [lookupD_dictInsert_self, hcat]
          simp
        · rw [lookupD_dictInsert_ne _ _ _ he]
          simp [Ne.symm he]
    · rw [add_to_cart_no_stock s pid qty product hcat hq]

theorem conserve_update_cart_quantity (s : ShoppingCart) (h : CartInv s)
    (pid : String) (new_qty : Int) (res : Bool × ShoppingCart)
    (hr : s.update_cart_quantity pid new_qty = some res) (r : String) :
    res.2.stockOf r + res.2.cartQty r = s.stockOf r + s.cartQty r := by
  obtain ⟨h1, h2, h3, h4⟩ := h
  cases hc : lookupD pid s.cart with
  | none =>
    rw [update_not_in_cart s pid new_qty hc] at hr
    cases hr
    rfl
  | some item =>
    obtain ⟨hid, product, hcat0, hpr0⟩ := wf_cart_item s h3 pid item hc
    have hcat : lookupD item.productId s.catalog = some product := by
      rw [hid]; exact hcat0
    rcases lt_trichotomy (new_qty - item.quantity) 0 with hd | hd | hd
    · rw [update_decrease s pid new_qty item product hc hcat hd] at hr
      cases hr
      simp only [ShoppingCart.stockOf, ShoppingCart.cartQty]
      rw [linesQty_dictInsert_some r pid _ item s.cart hc, hid]
      by_cases he : r = pid
      · subst he
        rw [lookupD_dictInsert_self, hcat0]
        simp [hid]
        omega
      · rw [lookupD_dictInsert_ne _ _ _ he]
        simp only [hid, if_neg (fun hh : pid = r => he hh.symm)]
        omega
    · rw [update_noop s pid new_qty item product hc hcat hd] at hr
      cases hr
      rfl
    · by_cases hs : new_qty - item.quantity ≤ product.quantity_available
      · rw [update_increase_ok s pid new_qty item product hc hcat hd hs] at hr
        cases hr
        simp only [ShoppingCart.stockOf, ShoppingCart.cartQty]
        rw [linesQty_dictInsert_some r pid _ item s.cart hc, hid]
        by_cases he : r = pid
        · subst he
          rw [lookupD_dictInsert_self, hcat0]
          simp [hid]
          omega
        · rw [lookupD_dictInsert_ne _ _ _ he]
          simp [hid, Ne.symm he]
      · rw [update_increase_fail s pid new_qty item product hc hcat hd hs] at hr
        cases hr
        rfl

theorem conserve_remove_from_cart (s : ShoppingCart) (h : CartInv s)
    (pid : String) (res : Bool × ShoppingCart)
    (hr : s.remove_from_cart pid = some res) (r : String) :
    res.2.stockOf r + res.2.cartQty r = s.stockOf r + s.cartQty r := by
  obtain ⟨h1, h2, h3, h4⟩ := h
  cases hc : lookupD pid s.cart with
  | none =>
    rw [remove_not_in_cart s pid hc] at hr
    cases hr
    rfl
  | some item =>
    obtain ⟨hid, product, hcat, hpr0⟩ := wf_cart_item s h3 pid item hc
    rw [remove_success s pid item product hc hcat] at hr
    cases hr
    simp only [ShoppingCart.stockOf, ShoppingCart.cartQty]
    rw [linesQty_dictErase_some r pid item s.cart hc]
    by_cases he : r = pid
    · subst he
      rw [lookupD_dictInsert_self, hcat]
      simp [hid]
    · rw [lookupD_dictInsert_ne _ _ _ he]
      simp [hid, Ne.symm he]

theorem conserve_applyOp (s : ShoppingCart) (h : CartInv s) (op : Op)
    (hop : op.conserving) (s' : ShoppingCart) (ha : applyOp s op = some s')
    (r : String) : s'.stockOf r + s'.cartQty r = s.stockOf r + s.cartQty r := by
  cases op with
  | addProduct n p q => exact absurd hop (by simp [Op.conserving])
  | clearAll => exact absurd hop (by simp [Op.conserving])
  | addToCart pid q =>
    simp only [applyOp, Option.some.injEq] at ha
    subst ha
    exact conserve_add_to_cart s h pid q r
  | updateCart pid q =>
    simp only [applyOp] at ha
    cases hu : s.update_cart_quantity pid q with
    | none =>
      rw [hu] at ha
      exact Option.noConfusion ha
    | some res =>
      rw [hu] at ha
      simp only [Option.map_some', Option.some.injEq] at ha
      subst ha
      exact conserve_update_cart_quantity s h pid q res hu r
  | removeItem pid =>
    simp only [applyOp] at ha
    cases hu : s.remove_from_cart pid with
    | none =>
      rw [hu] at ha
      exact Option.noConfusion ha
    | some res =>
      rw [hu] at ha
      simp only [Option.map_some', Option.some.injEq] at ha
      subst ha
      exact conserve_remove_from_cart s h pid res hu r

theorem conserve_runOps (ops : List Op) :
    ∀ s s', (∀ op ∈ ops, op.conserving) → CartInv s → runOps s ops = some s' →
      ∀ r, s'.stockOf r + s'.cartQty r = s.stockOf r + s.cartQty r := by
  induction ops with
  | nil =>
    intro s s' _ h hr r
    simp only [runOps, Option.some.injEq] at hr
    subst hr
    rfl
  | cons op ops ih =>
    intro s s' hops h hr r
    simp only [runOps] at hr
    cases ha : applyOp s op with
    | none =>
      rw [ha] at hr
      exact Option.noConfusion hr
    | some s1 =>
      rw [ha] at hr
      have hstep := conserve_applyOp s h op
        (hops op (List.mem_cons.mpr (Or.inl rfl))) s1 ha r
      have htail := ih s1 s' (fun o hm => hops o (List.mem_cons.mpr (Or.inr hm)))
        (inv_applyOp s h op s1 ha) hr r
      omega

theorem update_dangling (s : ShoppingCart) (pid : String) (new_qty : Int)
    (item : CartItem) (hc : lookupD pid s.cart = some item)
    (hcat : lookupD item.productId s.catalog = none) :
    s.update_cart_quantity pid new_qty = none := by
  unfold ShoppingCart.update_cart_quantity
  rw [hc]
  simp [hcat]

/-- Restriction used by the amended C8: every `updateCart` call in the
sequence carries a positive new quantity. -/
def Op.posUpdate : Op → Prop
  | .updateCart _ q => 0 < q
  | _ => True

theorem pos_add_to_cart (s : ShoppingCart)
    (hp : ∀ kv ∈ s.cart, 0 < kv.2.quantity) (pid : String) (qty : Int) :
    ∀ kv ∈ (s.add_to_cart pid qty).2.cart, 0 < kv.2.quantity := by
  cases hcat : lookupD pid s.catalog with
  | none =>
    rw [add_to_cart_not_found s pid qty hcat]
    exact hp
  | some product =>
    by_cases hq : 0 < qty ∧ qty ≤ product.quantity_available
    · cases hc : lookupD pid s.cart with
      | some item =>
        rw [add_to_cart_success_grow s pid qty product item hcat hq hc]
        intro kv hkv
        rcases mem_dictInsert _ _ _ _ hkv with rfl | hold
        · have hit : 0 < item.quantity := hp (pid, item) (lookupD_mem _ _ _ hc)
          show 0 < item.quantity + qty
          have := hq.1
          omega
        · exact hp kv hold
      | none =>
        rw [add_to_cart_success_new s pid qty product hcat hq hc]
        intro kv hkv
        rcases mem_dictInsert _ _ _ _ hkv with rfl | hold
        · exact hq.1
        · exact hp kv hold
    · rw [add_to_cart_no_stock s pid qty product hcat hq]
      exact hp

theorem pos_update_cart_quantity (s : ShoppingCart)
    (hp : ∀ kv ∈ s.cart, 0 < kv.2.quantity) (pid : String) (new_qty : Int)
    (hpos : 0 < new_qty) (res : Bool × ShoppingCart)
    (hr : s.update_cart_quantity pid new_qty = some res) :
    ∀ kv ∈ res.2.cart, 0 < kv.2.quantity := by
  cases hc : lookupD pid s.cart with
  | none =>
    rw [update_not_in_cart s pid new_qty hc] at hr
    cases hr
    exact hp
  | some item =>
    cases hcat : lookupD item.productId s.catalog with
    | none =>
      rw [update_dangling s pid new_qty item hc hcat] at hr
      exact Option.noConfusion hr
    | some product =>
      rcases lt_trichotomy (new_qty - item.quantity) 0 with hd | hd | hd
      · rw [update_decrease s pid new_qty item product hc hcat hd] at hr
        cases hr
        intro kv hkv
        rcases mem_dictInsert _ _ _ _ hkv with rfl | hold
        · exact hpos
        · exact hp kv hold
      · rw [update_noop s pid new_qty item product hc hcat hd] at hr
        cases hr
        exact hp
      · by_cases hs : new_qty - item.quantity ≤ product.quantity_available
        · rw [update_increase_ok s pid new_qty item product hc hcat hd hs] at hr
          cases hr
          intro kv hkv
          rcases mem_dictInsert _ _ _ _ hkv with rfl | hold
          · exact hpos
          · exact hp kv hold
        · rw [update_increase_fail s pid new_qty item product hc hcat hd hs] at hr
          cases hr
          exact hp

theorem pos_remove_from_cart (s : ShoppingCart)
    (hp : ∀ kv ∈ s.cart, 0 < kv.2.quantity) (pid : String)
    (res : Bool × ShoppingCart) (hr : s.remove_from_cart pid = some res) :
    ∀ kv ∈ res.2.cart, 0 < kv.2.quantity := by
  cases hc : lookupD pid s.cart with
  | none =>
    rw [remove_not_in_cart s pid hc] at hr
    cases hr
    exact hp
  | some item =>
    cases hcat : lookupD pid s.catalog with
    | none =>
      rw [remove_key_error s pid item hc hcat] at hr
      exact Option.noConfusion hr
    | some product =>
      rw [remove_success s pid item product hc hcat] at hr
      cases hr
      intro kv hkv
      exact hp kv (mem_dictErase _ _ _ hkv)

theorem pos_applyOp (s : ShoppingCart) (hp : ∀ kv ∈ s.cart, 0 < kv.2.quantity)
    (op : Op) (hop : op.posUpdate) (s' : ShoppingCart)
    (ha : applyOp s op = some s') : ∀ kv ∈ s'.cart, 0 < kv.2.quantity := by
  cases op with
  | addProduct n p q =>
    simp only [applyOp, Option.some.injEq] at ha
    subst ha
    simpa [ShoppingCart.add_product, ShoppingCart.generate_product_id] using hp
  | addToCart pid q =>
    simp only [applyOp, Option.some.injEq] at ha
    subst ha
    exact pos_add_to_cart s hp pid q
  | updateCart pid q =>
    simp only [applyOp] at ha
    cases hu : s.update_cart_quantity pid q with
    | none =>
      rw [hu] at ha
      exact Option.noConfusion ha
    | some res =>
      rw [hu] at ha
      simp only [Option.map_some', Option.some.injEq] at ha
      subst ha
      exact pos_update_cart_quantity s hp pid q hop res hu
  | removeItem pid =>
    simp only [applyOp] at ha
    cases hu : s.remove_from_cart pid with
    | none =>
      rw [hu] at ha
      exact Option.noConfusion ha
    | some res =>
      rw [hu] at ha
      simp only [Option.map_some', Option.some.injEq] at ha
      subst ha
      exact pos_remove_from_cart s hp pid res hu
  | clearAll =>
    simp only [applyOp, Option.some.injEq] at ha
    subst ha
    simp [ShoppingCart.clear_cart]

theorem pos_runOps (ops : List Op) :
    ∀ s s', (∀ op ∈ ops, op.posUpdate) → (∀ kv ∈ s.cart, 0 < kv.2.quantity) →
      runOps s ops = some s' → ∀ kv ∈ s'.cart, 0 < kv.2.quantity := by
  induction ops with
  | nil =>
    intro s s' _ hp hr
    simp only [runOps, Option.some.injEq] at hr
    subst hr
    exact hp
  | cons op ops ih =>
    intro s s' hops hp hr
    simp only [runOps] at hr
    cases ha : applyOp s op with
    | none =>
      rw [ha] at hr
      exact Option.noConfusion hr
    | some s1 =>
      rw [ha] at hr
      exact ih s1 s' (fun o hm => hops o (List.mem_cons.mpr (Or.inr hm)))
        (pos_applyOp s hp op (hops op (List.mem_cons.mpr (Or.inl rfl))) s1 ha) hr

/-- One direct mutation of a `Product` object, with its argument. -/
inductive POp where
  | dec (amount : Int)
  | inc (amount : Int)
  | set (value : Int)
deriving DecidableEq, Repr

/-- Effect of one `Product` mutation: `decrease_quantity`,
`increase_quantity`, or the `quantity_available` property setter. -/
def applyPOp (p : Product) : POp → Product
  | .dec a => (p.decrease_quantity a).2
  | .inc a => p.increase_quantity a
  | .set v => p.set_quantity_available v

/-- Runs a sequence of `Product` mutations. -/
def runPOps (p : Product) : List POp → Product
  | [] => p
  | op :: ops => runPOps (applyPOp p op) ops

/-- Restriction used by the amended C7: restock amounts passed to the
unguarded `increase_quantity` are non-negative. -/
def POp.nonnegInc : POp → Prop
  | .inc a => 0 ≤ a
  | _ => True

theorem nonneg_applyPOp (p : Product) (h0 : 0 ≤ p.quantity_available)
    (op : POp) (hop : op.nonnegInc) : 0 ≤ (applyPOp p op).quantity_available := by
  cases op with
  | dec a =>
    simp only [applyPOp, Product.decrease_quantity]
    split
    · rename_i hg
      simp only []
      omega
    · exact h0
  | inc a =>
    simp only [applyPOp, Product.increase_quantity]
    have : (0 : Int) ≤ a := hop
    omega
  | set v =>
    simp only [applyPOp, Product.set_quantity_available]
    split
    · rename_i hg
      simpa using hg
    · exact h0

theorem nonneg_runPOps (ops : List POp) :
    ∀ p : Product, 0 ≤ p.quantity_available → (∀ op ∈ ops, op.nonnegInc) →
      0 ≤ (runPOps p ops).quantity_available := by
  induction ops with
  | nil =>
    intro p h0 _
    exact h0
  | cons op ops ih =>
    intro p h0 hops
    exact ih (applyPOp p op)
      (nonneg_applyPOp p h0 op (hops op (List.mem_cons.mpr (Or.inl rfl))))
      (fun o hm => hops o (List.mem_cons.mpr (Or.inr hm)))

theorem linesQty_eq_zero (r : String) :
    ∀ cart : List (String × CartItem), (∀ kv ∈ cart, kv.2.productId ≠ r) →
      linesQty r cart = 0 := by
  intro cart
  induction cart with
  | nil =>
    intro _
    rfl
  | cons hd tl ih =>
    intro h
    simp only [linesQty, List.map_cons, List.sum_cons]
    rw [if_neg (h hd (List.mem_cons.mpr (Or.inl rfl)))]
    have := ih (fun kv hm => h kv (List.mem_cons.mpr (Or.inr hm)))
    simp only [linesQty] at this
    rw [this]
    ring

/-- Catalog price recorded for key `k` (0 when absent, which never
matters because the relevant keys are present). -/
def ShoppingCart.priceOf (s : ShoppingCart) (k : String) : Int :=
  match lookupD k s.catalog with
  | some p => p.price
  | none => 0

theorem map_sum_eq_of_congr (f g : String × CartItem → Int) :
    ∀ l : List (String × CartItem), (∀ kv ∈ l, f kv = g kv) →
      (l.map f).sum = (l.map g).sum := by
  intro l
  induction l with
  | nil =>
    intro _
    rfl
  | cons hd tl ih =>
    intro h
    simp only [List.map_cons, List.sum_cons]
    rw [h hd (List.mem_cons.mpr (Or.inl rfl)),
      ih (fun kv hm => h kv (List.mem_cons.mpr (Or.inr hm)))]

theorem subtotal_map_sum (s : ShoppingCart)
    (h3 : ∀ kv ∈ s.cart, kv.2.productId = kv.1 ∧
      (lookupD kv.1 s.catalog).map Product.price = some kv.2.price) :
    (s.cart.map (fun kv => kv.2.subtotal)).sum
      = (s.cart.map (fun kv => s.priceOf kv.1 * kv.2.quantity)).sum := by
  apply map_sum_eq_of_congr
  intro kv hkv
  obtain ⟨_, hpr⟩ := h3 kv hkv
  cases hc : lookupD kv.1 s.catalog with
  | none =>
    rw [hc] at hpr
    exact Option.noConfusion hpr
  | some p =>
    rw [hc] at hpr
    simp only [Option.map_some', Option.some.injEq] at hpr
    simp [CartItem.subtotal, ShoppingCart.priceOf, hc, hpr]

/-- Claim C1: on any reachable state, right after a product is created
with `add_product` its recorded stock is the creation quantity and no
cart line reserves it; and along any further sequence of `add_to_cart`,
`update_cart_quantity` and `remove_from_cart` calls, available stock
plus the total quantity reserved across cart lines for that product
stays equal to the creation stock at every point. -/
theorem C1_stock_plus_reserved_conserved (s : ShoppingCart) (hs : Reachable s)
    (nm : String) (price qty : Int) (ops : List Op)
    (hops : ∀ op ∈ ops, op.conserving) (s' : ShoppingCart)
    (hr : runOps (s.add_product nm price qty).2 ops = some s') :
    (s.add_product nm price qty).2.stockOf (s.add_product nm price qty).1 = qty ∧
    (s.add_product nm price qty).2.cartQty (s.add_product nm price qty).1 = 0 ∧
    s'.stockOf (s.add_product nm price qty).1
      + s'.cartQty (s.add_product nm price qty).1 = qty := by
  have hinv := reachable_inv s hs
  obtain ⟨h1, h2, h3, h4⟩ := hinv
  have hfresh : lookupD (pidString s.next_id) s.catalog = none := pid_fresh s h4
  have hpid : (s.add_product nm price qty).1 = pidString s.next_id := rfl
  have hstock : (s.add_product nm price qty).2.stockOf (pidString s.next_id) = qty := by
    simp only [ShoppingCart.add_product, ShoppingCart.generate_product_id,
      ShoppingCart.stockOf]
    rw [lookupD_dictInsert_self]
  have hcart0 : (s.add_product nm price qty).2.cartQty (pidString s.next_id) = 0 := by
    simp only [ShoppingCart.add_product, ShoppingCart.generate_product_id,
      ShoppingCart.cartQty]
    apply linesQty_eq_zero
    intro kv hkv
    obtain ⟨hid, hpr⟩ := h3 kv hkv
    rw [hid]
    intro he
    rw [he, hfresh] at hpr
    exact Option.noConfusion hpr
  have hinv1 : CartInv (s.add_product nm price qty).2 :=
    inv_add_product s ⟨h1, h2, h3, h4⟩ nm price qty
  have hcons := conserve_runOps ops (s.add_product nm price qty).2 s' hops hinv1 hr
    (pidString s.next_id)
  rw [hpid]
  refine ⟨hstock, hcart0, ?_⟩
  rw [hcons, hstock, hcart0]
  omega

theorem C1_stock_plus_reserved_conserved_witness :
    (freshCart.add_product "Pen" 10 5).2.stockOf (freshCart.add_product "Pen" 10 5).1 = 5 ∧
    (freshCart.add_product "Pen" 10 5).2.cartQty (freshCart.add_product "Pen" 10 5).1 = 0 ∧
    ({ catalog := [("PID001", ⟨"PID001", "Pen", 10, 2⟩)],
       cart := [("PID001", ⟨"PID001", 10, 3⟩)],
       next_id := 2 } : ShoppingCart).stockOf (freshCart.add_product "Pen" 10 5).1
      + ({ catalog := [("PID001", ⟨"PID001", "Pen", 10, 2⟩)],
           cart := [("PID001", ⟨"PID001", 10, 3⟩)],
           next_id := 2 } : ShoppingCart).cartQty (freshCart.add_product "Pen" 10 5).1
        = 5 :=
  C1_stock_plus_reserved_conserved freshCart ⟨[], rfl⟩ "Pen" 10 5
    [Op.addToCart "PID001" 3]
    (by
      intro op hm
      rcases List.mem_singleton.mp hm with rfl
      exact trivial)
    _ (by decide)

/-- Claim C10: in every reachable state, every cart key is a catalog
key and the line's product reference is the catalog product stored
under that very key (same key, same immutable price); consequently the
`self.catalog[pid]` lookup inside `remove_from_cart` cannot raise for
any argument. -/
theorem C10_cart_references_catalog (s : ShoppingCart) (hs : Reachable s) :
    (∀ kv ∈ s.cart, kv.2.productId = kv.1 ∧
      ∃ p, lookupD kv.1 s.catalog = some p ∧ kv.2.price = p.price) ∧
    ∀ pid, ∃ res, s.remove_from_cart pid = some res := by
  have h := reachable_inv s hs
  obtain ⟨h1, h2, h3, h4⟩ := h
  constructor
  · intro kv hkv
    obtain ⟨hid, hpr⟩ := h3 kv hkv
    refine ⟨hid, ?_⟩
    cases hc : lookupD kv.1 s.catalog with
    | none =>
      rw [hc] at hpr
      exact Option.noConfusion hpr
    | some p =>
      rw [hc] at hpr
      simp only [Option.map_some', Option.some.injEq] at hpr
      exact ⟨p, rfl, hpr.symm⟩
  · intro pid
    exact remove_isSome s ⟨h1, h2, h3, h4⟩ pid

theorem C10_cart_references_catalog_witness :
    ∃ res, ({ catalog := [("PID001", ⟨"PID001", "Book", 50, 1⟩)],
              cart := [("PID001", ⟨"PID001", 50, 1⟩)],
              next_id := 2 } : ShoppingCart).remove_from_cart "PID001" = some res :=
  (C10_cart_references_catalog _
    ⟨[Op.addProduct "Book" 50 2, Op.addToCart "PID001" 1], by decide⟩).2 "PID001"

/-- Claim C2 counterexample: with `"PID001"` in the catalog at stock 5,
`add_to_cart("PID001", 0)` fails even though the id is present and the
available stock (5) is not insufficient for the requested quantity (0);
the claim's "fails exactly when absent or insufficient" biconditional
is false at this input because the code also rejects any `qty <= 0`. -/
theorem C2_add_to_cart_counterexample :
    ((freshCart.add_product "Pen" 10 5).2.add_to_cart "PID001" 0).1 = false ∧
    lookupD "PID001" (freshCart.add_product "Pen" 10 5).2.catalog
      = some ⟨"PID001", "Pen", 10, 5⟩ ∧
    ((0 : Int) ≤ 5) := by decide

/-- Claim C2 (amended): `add_to_cart(id, qty)` fails and leaves the
state unchanged exactly when the id is absent from the catalog or `qty`
is not a positive amount no larger than the available stock (so
`qty <= 0` also fails); when it succeeds, it deducted `qty` from that
product's stock and either incremented the existing cart line by `qty`
or created a new line with quantity `qty`, touching no other key and
not the id counter. -/
theorem C2_add_to_cart_contract (s : ShoppingCart) (pid : String) (qty : Int) :
    (((s.add_to_cart pid qty).1 = false ∧ (s.add_to_cart pid qty).2 = s) ↔
      (lookupD pid s.catalog = none ∨
        ∃ p, lookupD pid s.catalog = some p ∧
          ¬(0 < qty ∧ qty ≤ p.quantity_available))) ∧
    (∀ p, lookupD pid s.catalog = some p → 0 < qty → qty ≤ p.quantity_available →
      (s.add_to_cart pid qty).1 = true ∧
      lookupD pid (s.add_to_cart pid qty).2.catalog
        = some { p with quantity_available := p.quantity_available - qty } ∧
      (∀ k, k ≠ pid → lookupD k (s.add_to_cart pid qty).2.catalog = lookupD k s.catalog) ∧
      (s.add_to_cart pid qty).2.next_id = s.next_id ∧
      ((∃ item, lookupD pid s.cart = some item ∧
          lookupD pid (s.add_to_cart pid qty).2.cart
            = some { item with quantity := item.quantity + qty }) ∨
        (lookupD pid s.cart = none ∧
          lookupD pid (s.add_to_cart pid qty).2.cart = some ⟨pid, p.price, qty⟩)) ∧
      (∀ k, k ≠ pid → lookupD k (s.add_to_cart pid qty).2.cart = lookupD k s.cart)) := by
  constructor
  · constructor
    · intro ⟨hf, _⟩
      cases hcat : lookupD pid s.catalog with
      | none => exact Or.inl rfl
      | some p =>
        by_cases hq : 0 < qty ∧ qty ≤ p.quantity_available
        · exfalso
          cases hc : lookupD pid s.cart with
          | some item =>
            rw [add_to_cart_success_grow s pid qty p item hcat hq hc] at hf
            exact Bool.noConfusion hf
          | none =>
            rw [add_to_cart_success_new s pid qty p hcat hq hc] at hf
            exact Bool.noConfusion hf
        · exact Or.inr ⟨p, rfl, hq⟩
    · intro hcond
      rcases hcond with hcat | ⟨p, hcat, hq⟩
      · rw [add_to_cart_not_found s pid qty hcat]
        exact ⟨rfl, rfl⟩
      · rw [add_to_cart_no_stock s pid qty p hcat hq]
        exact ⟨rfl, rfl⟩
  · intro p hcat h0 hle
    cases hc : lookupD pid s.cart with
    | some item =>
      rw [add_to_cart_success_grow s pid qty p item hcat ⟨h0, hle⟩ hc]
      refine ⟨rfl, ?_, ?_, rfl, ?_, ?_⟩
      · exact lookupD_dictInsert_self _ _ _
      · intro k hk
        exact lookupD_dictInsert_ne _ _ _ hk _
      · exact Or.inl ⟨item, rfl, lookupD_dictInsert_self _ _ _⟩
      · intro k hk
        exact lookupD_dictInsert_ne _ _ _ hk _
    | none =>
      rw [add_to_cart_success_new s pid qty p hcat ⟨h0, hle⟩ hc]
      refine ⟨rfl, ?_, ?_, rfl, ?_, ?_⟩
      · exact lookupD_dictInsert_self _ _ _
      · intro k hk
        exact lookupD_dictInsert_ne _ _ _ hk _
      · exact Or.inr ⟨rfl, lookupD_dictInsert_self _ _ _⟩
      · intro k hk
        exact lookupD_dictInsert_ne _ _ _ hk _

theorem C2_add_to_cart_contract_witness :
    ((freshCart.add_to_cart "PID001" 1).1 = false ∧
      (freshCart.add_to_cart "PID001" 1).2 = freshCart) :=
  (C2_add_to_cart_contract freshCart "PID001" 1).1.mpr (Or.inl (by decide))

/-- Claim C3: on any reachable state, `update_cart_quantity(id, newQty)`
returns failure with no mutation when the id is not in the cart;
otherwise with `diff = newQty - currentQty`: at `diff = 0` it succeeds
changing nothing; at `diff > 0` it succeeds exactly when
`diff <= available`, deducting `diff` from the product's stock and
setting the line quantity to `newQty` (no other key touched), and fails
with no mutation otherwise; at `diff < 0` it always succeeds, returning
`-diff` units to the product's stock and setting the line to `newQty`. -/
theorem C3_update_cart_quantity_contract (s : ShoppingCart) (hs : Reachable s)
    (pid : String) (new_qty : Int) :
    (lookupD pid s.cart = none → s.update_cart_quantity pid new_qty = some (false, s)) ∧
    (∀ item, lookupD pid s.cart = some item →
      ∃ p, lookupD pid s.catalog = some p ∧
        (new_qty - item.quantity = 0 →
          s.update_cart_quantity pid new_qty = some (true, s)) ∧
        (0 < new_qty - item.quantity → new_qty - item.quantity ≤ p.quantity_available →
          ∃ s', s.update_cart_quantity pid new_qty = some (true, s') ∧
            s'.stockOf pid = p.quantity_available - (new_qty - item.quantity) ∧
            lookupD pid s'.cart = some { item with quantity := new_qty } ∧
            (∀ k, k ≠ pid → lookupD k s'.catalog = lookupD k s.catalog) ∧
            (∀ k, k ≠ pid → lookupD k s'.cart = lookupD k s.cart) ∧
            s'.next_id = s.next_id) ∧
        (0 < new_qty - item.quantity → ¬ new_qty - item.quantity ≤ p.quantity_available →
          s.update_cart_quantity pid new_qty = some (false, s)) ∧
        (new_qty - item.quantity < 0 →
          ∃ s', s.update_cart_quantity pid new_qty = some (true, s') ∧
            s'.stockOf pid = p.quantity_available + (item.quantity - new_qty) ∧
            lookupD pid s'.cart = some { item with quantity := new_qty } ∧
            (∀ k, k ≠ pid → lookupD k s'.catalog = lookupD k s.catalog) ∧
            (∀ k, k ≠ pid → lookupD k s'.cart = lookupD k s.cart) ∧
            s'.next_id = s.next_id)) := by
  obtain ⟨h1, h2, h3, h4⟩ := reachable_inv s hs
  constructor
  · intro hc
    exact update_not_in_cart s pid new_qty hc
  · intro item hc
    obtain ⟨hid, p, hcat0, hpr0⟩ := wf_cart_item s h3 pid item hc
    have hcat : lookupD item.productId s.catalog = some p := by
      rw [hid]; exact hcat0
    refine ⟨p, hcat0, ?_, ?_, ?_, ?_⟩
    · intro hd
      exact update_noop s pid new_qty item p hc hcat hd
    · intro hd hsle
      refine ⟨_, update_increase_ok s pid new_qty item p hc hcat hd hsle, ?_, ?_, ?_, ?_, rfl⟩
      · simp only [ShoppingCart.stockOf, hid]
        rw [lookupD_dictInsert_self]
      · rw [hid]
        exact lookupD_dictInsert_self _ _ _
      · intro k hk
        rw [hid]
        exact lookupD_dictInsert_ne _ _ _ hk _
      · intro k hk
        exact lookupD_dictInsert_ne _ _ _ hk _
    · intro hd hsgt
      exact update_increase_fail s pid new_qty item p hc hcat hd hsgt
    · intro hd
      refine ⟨_, update_decrease s pid new_qty item p hc hcat hd, ?_, ?_, ?_, ?_, rfl⟩
      · simp only [ShoppingCart.stockOf, hid]
        rw [lookupD_dictInsert_self]
        simp only []
        omega
      · rw [hid]
        exact lookupD_dictInsert_self _ _ _
      · intro k hk
        rw [hid]
        exact lookupD_dictInsert_ne _ _ _ hk _
      · intro k hk
        exact lookupD_dictInsert_ne _ _ _ hk _

theorem C3_update_cart_quantity_contract_witness :
    ({ catalog := [("PID001", ⟨"PID001", "Pen", 10, 2⟩)],
       cart := [("PID001", ⟨"PID001", 10, 3⟩)],
       next_id := 2 } : ShoppingCart).update_cart_quantity "PID002" 4
      = some (false,
        { catalog := [("PID001", ⟨"PID001", "Pen", 10, 2⟩)],
          cart := [("PID001", ⟨"PID001", 10, 3⟩)],
          next_id := 2 }) :=
  (C3_update_cart_quantity_contract _
    ⟨[Op.addProduct "Pen" 10 5, Op.addToCart "PID001" 3], by decide⟩
    "PID002" 4).1 (by decide)

/-- Claim C4: on any reachable state, `remove_from_cart(id)` returns
failure with no mutation when the id is not in the cart; otherwise it
succeeds, adds the line's full reserved quantity back to the referenced
product's available stock, deletes the cart line, and an immediately
repeated `remove_from_cart(id)` fails. -/
theorem C4_remove_from_cart_contract (s : ShoppingCart) (hs : Reachable s)
    (pid : String) :
    (lookupD pid s.cart = none → s.remove_from_cart pid = some (false, s)) ∧
    (∀ item, lookupD pid s.cart = some item →
      ∃ p s', lookupD pid s.catalog = some p ∧
        s.remove_from_cart pid = some (true, s') ∧
        s'.stockOf pid = p.quantity_available + item.quantity ∧
        lookupD pid s'.cart = none ∧
        s'.remove_from_cart pid = some (false, s')) := by
  obtain ⟨h1, h2, h3, h4⟩ := reachable_inv s hs
  constructor
  · intro hc
    exact remove_not_in_cart s pid hc
  · intro item hc
    obtain ⟨hid, p, hcat, hpr0⟩ := wf_cart_item s h3 pid item hc
    have hgone : lookupD pid (dictErase pid s.cart) = none :=
      lookupD_dictErase_self pid s.cart h2
    refine ⟨p, _, hcat, remove_success s pid item p hc hcat, ?_, hgone, ?_⟩
    · simp only [ShoppingCart.stockOf]
      rw [lookupD_dictInsert_self]
    · exact remove_not_in_cart _ pid hgone

theorem C4_remove_from_cart_contract_witness :
    ({ catalog := [("PID001", ⟨"PID001", "Pen", 10, 2⟩)],
       cart := [("PID001", ⟨"PID001", 10, 3⟩)],
       next_id := 2 } : ShoppingCart).remove_from_cart "PID007"
      = some (false,
        { catalog := [("PID001", ⟨"PID001", "Pen", 10, 2⟩)],
          cart := [("PID001", ⟨"PID001", 10, 3⟩)],
          next_id := 2 }) :=
  (C4_remove_from_cart_contract _
    ⟨[Op.addProduct "Pen" 10 5, Op.addToCart "PID001" 3], by decide⟩
    "PID007").1 (by decide)

/-- Claim C5: `get_cart_total` returns the sum over all cart lines of
the referenced catalog product's unit price times the line quantity,
and is zero on an empty cart.  In this embedding `get_cart_total` is a
plain function of the state returning only an integer, so it cannot
mutate the catalog, the cart or the id counter by construction, exactly
as the Python method only reads. -/
theorem C5_get_cart_total (s : ShoppingCart) (hs : Reachable s) :
    s.get_cart_total
      = (s.cart.map (fun kv => s.priceOf kv.1 * kv.2.quantity)).sum ∧
    (s.cart = [] → s.get_cart_total = 0) := by
  obtain ⟨h1, h2, h3, h4⟩ := reachable_inv s hs
  constructor
  · simp only [ShoppingCart.get_cart_total]
    exact subtotal_map_sum s h3
  · intro he
    simp [ShoppingCart.get_cart_total, he]

theorem C5_get_cart_total_witness :
    ({ catalog := [("PID001", ⟨"PID001", "Pen", 10, 5⟩)], cart := [],
       next_id := 2 } : ShoppingCart).get_cart_total = 0 :=
  (C5_get_cart_total _ ⟨[Op.addProduct "Pen" 10 5], by decide⟩).2 rfl

/-- Claim C6: `clear_cart` unconditionally empties the cart mapping and
leaves the catalog (hence every product's available stock) and the id
counter unchanged; reserved stock is consumed, not returned. -/
theorem C6_clear_cart_frame (s : ShoppingCart) :
    s.clear_cart.cart = [] ∧ s.clear_cart.catalog = s.catalog ∧
    s.clear_cart.next_id = s.next_id ∧ ∀ r, s.clear_cart.stockOf r = s.stockOf r :=
  ⟨rfl, rfl, rfl, fun _ => rfl⟩

/-- Claim C7 counterexample: from the non-negative quantity 2, the single
mutation `increase_quantity(-3)` drives the available quantity to -1,
so under the unrestricted mutation operations the quantity does become
negative — `increase_quantity` adds its argument unconditionally with
no sign check. -/
theorem C7_negative_quantity_counterexample :
    (runPOps ⟨"PID001", "Pen", 10, 2⟩ [POp.inc (-3)]).quantity_available = -1 ∧
    ((-1 : Int) < 0) := by decide

/-- Claim C7 (amended): for every Product starting with a non-negative
available quantity and every sequence of mutations in which
`increase_quantity` receives only non-negative amounts, the available
quantity never becomes negative; moreover the direct setter silently
ignores negative inputs, and `decrease_quantity` succeeds and deducts
exactly when `0 < amount <= quantity_available`, failing with no side
effects otherwise. -/
theorem C7_quantity_stays_nonneg (p : Product) (h0 : 0 ≤ p.quantity_available)
    (ops : List POp) (hops : ∀ op ∈ ops, op.nonnegInc) :
    0 ≤ (runPOps p ops).quantity_available ∧
    (∀ v : Int, v < 0 → p.set_quantity_available v = p) ∧
    (∀ a : Int, 0 < a → a ≤ p.quantity_available →
      p.decrease_quantity a
        = (true, { p with quantity_available := p.quantity_available - a })) ∧
    (∀ a : Int, ¬(0 < a ∧ a ≤ p.quantity_available) →
      p.decrease_quantity a = (false, p)) := by
  refine ⟨nonneg_runPOps ops p h0 hops, ?_, ?_, ?_⟩
  · intro v hv
    have hng : ¬ (0 : Int) ≤ v := by omega
    simp [Product.set_quantity_available, hng]
  · intro a h0a hle
    simp [Product.decrease_quantity, h0a, hle]
  · intro a hna
    simp [Product.decrease_quantity, hna]

theorem C7_quantity_stays_nonneg_witness :
    0 ≤ (runPOps ⟨"PID001", "Pen", 10, 5⟩
      [POp.dec 2, POp.inc 3, POp.set (-4)]).quantity_available :=
  (C7_quantity_stays_nonneg ⟨"PID001", "Pen", 10, 5⟩ (by decide)
    [POp.dec 2, POp.inc 3, POp.set (-4)]
    (by
      intro op hm
      fin_cases hm
      · trivial
      · show (0 : Int) ≤ 3
        decide
      · trivial)).1

/-- Claim C8 counterexample: the reachable run addProduct("Pen",10,5);
addToCart("PID001",3); updateCartQuantity("PID001",0) ends in a state
whose cart still holds a line for "PID001" with quantity 0, so not
every existing cart line has a positive quantity —
`update_cart_quantity` does not validate the new quantity. -/
theorem C8_zero_quantity_line_counterexample :
    runOps freshCart [Op.addProduct "Pen" 10 5, Op.addToCart "PID001" 3,
        Op.updateCart "PID001" 0]
      = some { catalog := [("PID001", ⟨"PID001", "Pen", 10, 5⟩)],
               cart := [("PID001", ⟨"PID001", 10, 0⟩)],
               next_id := 2 } ∧
    ¬ (0 : Int) < 0 := by decide

/-- Claim C8 (amended): in every state reachable from a fresh manager by
façade operations in which `update_cart_quantity` is only invoked with
a positive new quantity, every existing cart line has a positive
quantity. -/
theorem C8_cart_lines_positive (ops : List Op) (hops : ∀ op ∈ ops, op.posUpdate)
    (s : ShoppingCart) (hr : runOps freshCart ops = some s) :
    ∀ kv ∈ s.cart, 0 < kv.2.quantity := by
  apply pos_runOps ops freshCart s hops ?_ hr
  intro kv hkv
  simp [freshCart] at hkv

theorem C8_cart_lines_positive_witness :
    0 < (CartItem.mk "PID001" 10 3).quantity :=
  C8_cart_lines_positive [Op.addProduct "Pen" 10 5, Op.addToCart "PID001" 3]
    (by
      intro op hm
      fin_cases hm
      · trivial
      · trivial)
    { catalog := [("PID001", ⟨"PID001", "Pen", 10, 2⟩)],
      cart := [("PID001", ⟨"PID001", 10, 3⟩)],
      next_id := 2 }
    (by decide)
    ("PID001", ⟨"PID001", 10, 3⟩) (by decide)

/-- Claim C9: on any reachable state, `add_product` always succeeds,
returns the id `"PID"` plus the zero-padded current counter value, that
id is not already a catalog key, the new product is stored under it,
every other catalog key and the whole cart are untouched, and the
counter increments; the counter starts at 1 on a fresh manager, whose
first two calls return `"PID001"` and `"PID002"`. -/
theorem C9_add_product_contract (s : ShoppingCart) (hs : Reachable s)
    (nm : String) (price qty : Int) :
    (s.add_product nm price qty).1 = pidString s.next_id ∧
    lookupD (s.add_product nm price qty).1 s.catalog = none ∧
    lookupD (s.add_product nm price qty).1 (s.add_product nm price qty).2.catalog
      = some ⟨(s.add_product nm price qty).1, nm, price, qty⟩ ∧
    (∀ k, k ≠ (s.add_product nm price qty).1 →
      lookupD k (s.add_product nm price qty).2.catalog = lookupD k s.catalog) ∧
    (s.add_product nm price qty).2.cart = s.cart ∧
    (s.add_product nm price qty).2.next_id = s.next_id + 1 ∧
    freshCart.next_id = 1 ∧
    (freshCart.add_product "Pen" 10 5).1 = "PID001" ∧
    ((freshCart.add_product "Pen" 10 5).2.add_product "Book" 50 2).1 = "PID002" := by
  obtain ⟨h1, h2, h3, h4⟩ := reachable_inv s hs
  have hfresh := pid_fresh s h4
  simp only [ShoppingCart.add_product, ShoppingCart.generate_product_id]
  refine ⟨trivial, hfresh, lookupD_dictInsert_self _ _ _,
    fun k hk => lookupD_dictInsert_ne _ _ _ hk _, trivial, trivial, rfl,
    by decide, by decide⟩

theorem C9_add_product_contract_witness :
    (freshCart.add_product "Pen" 10 5).1 = pidString freshCart.next_id :=
  (C9_add_product_contract freshCart ⟨[], rfl⟩ "Pen" 10 5).1

